import Mathlib

/-!
Verification of the `MonCacheOnReadFs` caching union filesystem
(monCacheOnReadFs.go) against its specification.

The Go code is shallowly embedded: the two backing stores (`base` and
`layer`) are oracles giving the result of each filesystem primitive, and
every verb of the union is a pure function returning its Go result
together with a trace of the primitive actions it performed, in order.
Time is an abstract integer timeline (`now : Int`, durations are `Int`);
Go `nil` errors are `Option.none`.
-/

set_option autoImplicit false

namespace Afero

/-- File metadata, as consumed from `os.FileInfo`: size, modification
time (an instant on the abstract integer timeline) and the directory
flag. -/
structure FileInfo where
  size : Int
  modTime : Int
  isDir : Bool
deriving DecidableEq, Repr

/-- Go `error` values as `cacheStatus` distinguishes them.
`enoent` is the bare `syscall.ENOENT` value, `errNotExist` the bare
`os.ErrNotExist` value, `pathError e` a `*os.PathError` whose `Err`
field is `e`, `other n` any further error.  Equality of constructors
mirrors Go interface equality: two errors are equal only when they are
the same value, so a `pathError e` never equals `errNotExist`, exactly
as a `*os.PathError` never compares equal to `os.ErrNotExist` in Go.
`nilPathError` is the boxed zero value of `*os.PathError`: when the
two-value type assertion `err, ok = err.(*os.PathError)` fails, Go
assigns this typed nil to `err`, and as an interface value it is
non-nil, so it is a (mangled) error, not Go `nil`.  `nilDeref` stands
for the runtime panic Go raises when a nil `os.FileInfo` is
dereferenced; it is produced only on branches the invariant of
`cacheStatus` proves unreachable. -/
inductive GoErr where
  | enoent : GoErr
  | errNotExist : GoErr
  | pathError : GoErr → GoErr
  | other : Nat → GoErr
  | nilPathError : GoErr
  | nilDeref : GoErr
deriving DecidableEq, Repr

/-- An open file handle of one backing store, abstracted to an id. -/
abbrev Handle := Nat

instance exceptDecEq {ε α : Type} [DecidableEq ε] [DecidableEq α] :
    DecidableEq (Except ε α) := fun a b =>
  match a, b with
  | .ok x, .ok y =>
      if h : x = y then .isTrue (by rw [h]) else .isFalse (by simp [h])
  | .error x, .error y =>
      if h : x = y then .isTrue (by rw [h]) else .isFalse (by simp [h])
  | .ok _, .error _ => .isFalse (by simp)
  | .error _, .ok _ => .isFalse (by simp)

/-- Modelled from the spec: the four cache states.  The `cacheState`
type and its constants live in cacheOnReadFs.go, which is not among the
sources here; §3 of the spec lists exactly these four mutually exclusive
values. -/
inductive cacheState where
  | cacheLocal : cacheState
  | cacheHit : cacheState
  | cacheStale : cacheState
  | cacheMiss : cacheState
deriving DecidableEq, Repr

/-- Modelled from the spec: `UnionFile` (union.go, not among the sources
here) is the fan-out handle holding a base and a layer sub-handle, each
possibly nil.  A plain handle returned straight from one store is tagged
with its origin. -/
inductive File where
  | baseFile : Handle → File
  | layerFile : Handle → File
  | unionFile : Option Handle → Option Handle → File
deriving DecidableEq, Repr

/-- One backing store (`base` or `layer`) as an oracle: for every
primitive call, the result the store would return.  `Except` encodes the
Go convention that exactly one of (value, error) is meaningful. -/
structure FsOracle where
  Stat : String → Except GoErr FileInfo
  Chtimes : String → Int → Int → Option GoErr
  Chmod : String → Nat → Option GoErr
  Rename : String → String → Option GoErr
  Remove : String → Option GoErr
  RemoveAll : String → Option GoErr
  Mkdir : String → Nat → Option GoErr
  MkdirAll : String → Nat → Option GoErr
  Open : String → Except GoErr Handle
  OpenFile : String → Nat → Nat → Except GoErr Handle
  Create : String → Except GoErr Handle

/-- The caching union filesystem.  `promote` is the outcome oracle of
the promotion primitive; see `MonCacheOnReadFs.copyToLayer`. -/
structure MonCacheOnReadFs where
  base : FsOracle
  layer : FsOracle
  cacheTime : Int
  promote : String → Option GoErr

/-- The primitive actions a verb can perform on the backing stores, in
the order they are recorded in a trace.  `logLine n` is a line written
to the log sink by the watcher: 0 = NewWatcher error, 1 = cache status
error, 2 = cache (promotion) error, 3 = watcher error. -/
inductive Action where
  | layerStat : String → Action
  | baseStat : String → Action
  | copyToLayer : String → Action
  | baseChtimes : String → Int → Int → Action
  | layerChtimes : String → Int → Int → Action
  | baseChmod : String → Nat → Action
  | layerChmod : String → Nat → Action
  | baseRename : String → String → Action
  | layerRename : String → String → Action
  | baseRemove : String → Action
  | layerRemove : String → Action
  | baseRemoveAll : String → Action
  | layerRemoveAll : String → Action
  | baseMkdir : String → Nat → Action
  | baseMkdirAll : String → Nat → Action
  | layerMkdirAll : String → Nat → Action
  | baseOpen : String → Action
  | layerOpen : String → Action
  | baseOpenFile : String → Nat → Nat → Action
  | layerOpenFile : String → Nat → Nat → Action
  | baseCreate : String → Action
  | layerCreate : String → Action
  | baseClose : Handle → Action
  | logLine : Nat → Action
deriving DecidableEq, Repr

/-- Whether an action writes (mutates content or metadata of) the layer.
Promotion copies base content and modTime into the layer, so it writes
the layer; `layerOpenFile` appears in traces only with write-class
flags. Plain stats and read-only opens do not write. -/
def Action.writesLayer : Action → Bool
  | .copyToLayer _ => true
  | .layerChtimes _ _ _ => true
  | .layerChmod _ _ => true
  | .layerRename _ _ => true
  | .layerRemove _ => true
  | .layerRemoveAll _ => true
  | .layerMkdirAll _ _ => true
  | .layerOpenFile _ _ _ => true
  | .layerCreate _ => true
  | _ => false

/-- Modelled from the spec: the promotion primitive
`copyToLayer(base, layer, name)` (util.go, not among the sources here)
"copies content + modTime from base to layer".  Only its outcome and the
fact that it writes the layer matter here, so it is abstracted as the
`promote` oracle field; the call itself is recorded in traces as
`Action.copyToLayer`. -/
def MonCacheOnReadFs.copyToLayer (u : MonCacheOnReadFs) (name : String) : Option GoErr :=
  u.promote name

/-- `cacheStatus` (monCacheOnReadFs.go lines 44-73).  Faithful to the Go
control flow, including the two quirks of its error branch:
`err == os.ErrNotExist` is compared after the value has been asserted to
`*os.PathError`, which can never hold, and a failed two-value type
assertion `err, ok = err.(*os.PathError)` assigns the boxed zero value
of `*os.PathError` to `err` — a typed nil that is non-nil as an
interface — so the final `return cacheMiss, nil, err` propagates that
mangled non-nil error (`GoErr.nilPathError`) in place of the original
one. -/
def MonCacheOnReadFs.cacheStatus (u : MonCacheOnReadFs) (now : Int) (name : String) :
    (cacheState × Option FileInfo × Option GoErr) × List Action :=
  match u.layer.Stat name with
  | .ok lfi =>
      if u.cacheTime = 0 then
        ((.cacheHit, some lfi, none), [.layerStat name])
      else if lfi.modTime + u.cacheTime < now then
        match u.base.Stat name with
        | .error _ => ((.cacheLocal, some lfi, none), [.layerStat name, .baseStat name])
        | .ok bfi =>
            if lfi.modTime < bfi.modTime then
              ((.cacheStale, some bfi, none), [.layerStat name, .baseStat name])
            else
              ((.cacheHit, some lfi, none), [.layerStat name, .baseStat name])
      else
        ((.cacheHit, some lfi, none), [.layerStat name])
  | .error e =>
      if e = GoErr.enoent then
        ((.cacheMiss, none, none), [.layerStat name])
      else
        match e with
        | .pathError c =>
            if GoErr.pathError c = GoErr.errNotExist then
              ((.cacheMiss, none, none), [.layerStat name])
            else
              ((.cacheMiss, none, some (.pathError c)), [.layerStat name])
        | _ => ((.cacheMiss, none, some .nilPathError), [.layerStat name])

/-- `Chtimes` (lines 113-132): classify; on error return it; `cacheLocal`
skips base, `cacheHit` applies to base, `cacheStale`/`cacheMiss` promote
(returning a promotion error at once) and then apply to base; any base
error is returned before the layer is reached; finally the verb runs on
the layer and its result is returned. -/
def MonCacheOnReadFs.Chtimes (u : MonCacheOnReadFs) (now : Int)
    (name : String) (atime mtime : Int) : Option GoErr × List Action :=
  match u.cacheStatus now name with
  | ((_, _, some e), t0) => (some e, t0)
  | ((st, _, none), t0) =>
      match st with
      | .cacheLocal =>
          (u.layer.Chtimes name atime mtime, t0 ++ [.layerChtimes name atime mtime])
      | .cacheHit =>
          match u.base.Chtimes name atime mtime with
          | some e => (some e, t0 ++ [.baseChtimes name atime mtime])
          | none =>
              (u.layer.Chtimes name atime mtime,
               t0 ++ [.baseChtimes name atime mtime, .layerChtimes name atime mtime])
      | .cacheStale | .cacheMiss =>
          match u.copyToLayer name with
          | some e => (some e, t0 ++ [.copyToLayer name])
          | none =>
              match u.base.Chtimes name atime mtime with
              | some e => (some e, t0 ++ [.copyToLayer name, .baseChtimes name atime mtime])
              | none =>
                  (u.layer.Chtimes name atime mtime,
                   t0 ++ [.copyToLayer name, .baseChtimes name atime mtime,
                          .layerChtimes name atime mtime])

/-- `Chmod` (lines 134-153), same shape as `Chtimes`. -/
def MonCacheOnReadFs.Chmod (u : MonCacheOnReadFs) (now : Int)
    (name : String) (mode : Nat) : Option GoErr × List Action :=
  match u.cacheStatus now name with
  | ((_, _, some e), t0) => (some e, t0)
  | ((st, _, none), t0) =>
      match st with
      | .cacheLocal =>
          (u.layer.Chmod name mode, t0 ++ [.layerChmod name mode])
      | .cacheHit =>
          match u.base.Chmod name mode with
          | some e => (some e, t0 ++ [.baseChmod name mode])
          | none =>
              (u.layer.Chmod name mode,
               t0 ++ [.baseChmod name mode, .layerChmod name mode])
      | .cacheStale | .cacheMiss =>
          match u.copyToLayer name with
          | some e => (some e, t0 ++ [.copyToLayer name])
          | none =>
              match u.base.Chmod name mode with
              | some e => (some e, t0 ++ [.copyToLayer name, .baseChmod name mode])
              | none =>
                  (u.layer.Chmod name mode,
                   t0 ++ [.copyToLayer name, .baseChmod name mode, .layerChmod name mode])

/-- `Stat` (lines 155-166): classify; `cacheMiss` delegates to the base
stat; every other state returns the oracle's metadata directly (base
metadata on `cacheStale`, layer metadata on `cacheHit`/`cacheLocal`).
No branch promotes. -/
def MonCacheOnReadFs.Stat (u : MonCacheOnReadFs) (now : Int) (name : String) :
    (Option FileInfo × Option GoErr) × List Action :=
  match u.cacheStatus now name with
  | ((_, _, some e), t0) => ((none, some e), t0)
  | ((st, fi, none), t0) =>
      match st with
      | .cacheMiss =>
          match u.base.Stat name with
          | .ok bfi => ((some bfi, none), t0 ++ [.baseStat name])
          | .error e => ((none, some e), t0 ++ [.baseStat name])
      | _ => ((fi, none), t0)

/-- `Rename` (lines 168-187), classifying `oldname`; same shape as
`Chtimes`. -/
def MonCacheOnReadFs.Rename (u : MonCacheOnReadFs) (now : Int)
    (oldname newname : String) : Option GoErr × List Action :=
  match u.cacheStatus now oldname with
  | ((_, _, some e), t0) => (some e, t0)
  | ((st, _, none), t0) =>
      match st with
      | .cacheLocal =>
          (u.layer.Rename oldname newname, t0 ++ [.layerRename oldname newname])
      | .cacheHit =>
          match u.base.Rename oldname newname with
          | some e => (some e, t0 ++ [.baseRename oldname newname])
          | none =>
              (u.layer.Rename oldname newname,
               t0 ++ [.baseRename oldname newname, .layerRename oldname newname])
      | .cacheStale | .cacheMiss =>
          match u.copyToLayer oldname with
          | some e => (some e, t0 ++ [.copyToLayer oldname])
          | none =>
              match u.base.Rename oldname newname with
              | some e => (some e, t0 ++ [.copyToLayer oldname, .baseRename oldname newname])
              | none =>
                  (u.layer.Rename oldname newname,
                   t0 ++ [.copyToLayer oldname, .baseRename oldname newname,
                          .layerRename oldname newname])

/-- `Remove` (lines 189-203): classify; `cacheLocal` skips base; `cacheHit`,
`cacheStale` and `cacheMiss` all apply the verb to base directly (there is
no promotion in this verb); a base error is returned before the layer is
reached; finally the layer removal runs and its result is returned. -/
def MonCacheOnReadFs.Remove (u : MonCacheOnReadFs) (now : Int) (name : String) :
    Option GoErr × List Action :=
  match u.cacheStatus now name with
  | ((_, _, some e), t0) => (some e, t0)
  | ((st, _, none), t0) =>
      match st with
      | .cacheLocal =>
          (u.layer.Remove name, t0 ++ [.layerRemove name])
      | .cacheHit | .cacheStale | .cacheMiss =>
          match u.base.Remove name with
          | some e => (some e, t0 ++ [.baseRemove name])
          | none =>
              (u.layer.Remove name, t0 ++ [.baseRemove name, .layerRemove name])

/-- `RemoveAll` (lines 205-219), same shape as `Remove`. -/
def MonCacheOnReadFs.RemoveAll (u : MonCacheOnReadFs) (now : Int) (name : String) :
    Option GoErr × List Action :=
  match u.cacheStatus now name with
  | ((_, _, some e), t0) => (some e, t0)
  | ((st, _, none), t0) =>
      match st with
      | .cacheLocal =>
          (u.layer.RemoveAll name, t0 ++ [.layerRemoveAll name])
      | .cacheHit | .cacheStale | .cacheMiss =>
          match u.base.RemoveAll name with
          | some e => (some e, t0 ++ [.baseRemoveAll name])
          | none =>
              (u.layer.RemoveAll name, t0 ++ [.baseRemoveAll name, .layerRemoveAll name])

/-- `os.O_WRONLY` on linux. -/
def O_WRONLY : Nat := 1
/-- `syscall.O_RDWR` on linux. -/
def O_RDWR : Nat := 2
/-- `os.O_APPEND` on linux. -/
def O_APPEND : Nat := 1024
/-- `os.O_CREATE` on linux. -/
def O_CREATE : Nat := 64
/-- `os.O_TRUNC` on linux. -/
def O_TRUNC : Nat := 512

/-- `OpenFile` (lines 221-246): classify; `cacheLocal`/`cacheHit` skip
promotion, every other state promotes first (aborting on a promotion
error).  With a write-class flag set, open base (abort on error), then
open layer (closing the base handle on error), and return the fan-out
`UnionFile`; otherwise delegate to the layer open. -/
def MonCacheOnReadFs.OpenFile (u : MonCacheOnReadFs) (now : Int)
    (name : String) (flag : Nat) (perm : Nat) : Except GoErr File × List Action :=
  match u.cacheStatus now name with
  | ((_, _, some e), t0) => (.error e, t0)
  | ((st, _, none), t0) =>
      let pre : Option GoErr × List Action :=
        match st with
        | .cacheLocal | .cacheHit => (none, t0)
        | _ =>
            match u.copyToLayer name with
            | some e => (some e, t0 ++ [.copyToLayer name])
            | none => (none, t0 ++ [.copyToLayer name])
      match pre with
      | (some e, t1) => (.error e, t1)
      | (none, t1) =>
          if flag &&& (O_WRONLY ||| O_RDWR ||| O_APPEND ||| O_CREATE ||| O_TRUNC) ≠ 0 then
            match u.base.OpenFile name flag perm with
            | .error e => (.error e, t1 ++ [.baseOpenFile name flag perm])
            | .ok bfh =>
                match u.layer.OpenFile name flag perm with
                | .error e =>
                    (.error e,
                     t1 ++ [.baseOpenFile name flag perm, .layerOpenFile name flag perm,
                            .baseClose bfh])
                | .ok lfh =>
                    (.ok (.unionFile (some bfh) (some lfh)),
                     t1 ++ [.baseOpenFile name flag perm, .layerOpenFile name flag perm])
          else
            match u.layer.OpenFile name flag perm with
            | .error e => (.error e, t1 ++ [.layerOpenFile name flag perm])
            | .ok lfh => (.ok (.layerFile lfh), t1 ++ [.layerOpenFile name flag perm])

/-- `Open` (lines 248-290): classify; `cacheLocal` opens the layer;
`cacheMiss` stats base, opens base directly for a directory, else
promotes and opens the layer; non-directory `cacheStale` promotes then
opens the layer, non-directory `cacheHit` opens the layer; directories
on `cacheHit`/`cacheStale` fall through to the combined handle: base is
opened with its error discarded, the layer is opened, and only when the
layer errored and the base file is nil is an error returned, otherwise a
`UnionFile` of the two (nil-able) handles.  `fi.IsDir()` on a nil `fi`
would panic in Go; that branch yields `GoErr.nilDeref` and is
unreachable by the `cacheStatus` invariant. -/
def MonCacheOnReadFs.Open (u : MonCacheOnReadFs) (now : Int) (name : String) :
    Except GoErr File × List Action :=
  match u.cacheStatus now name with
  | ((_, _, some e), t0) => (.error e, t0)
  | ((st, fi, none), t0) =>
      let dirFall : List Action → Except GoErr File × List Action := fun t1 =>
        let bfile : Option Handle := (u.base.Open name).toOption
        match u.layer.Open name with
        | .error e =>
            if bfile = none then (.error e, t1 ++ [.baseOpen name, .layerOpen name])
            else (.ok (.unionFile bfile none), t1 ++ [.baseOpen name, .layerOpen name])
        | .ok lfh =>
            (.ok (.unionFile bfile (some lfh)), t1 ++ [.baseOpen name, .layerOpen name])
      let layerOpenTagged : List Action → Except GoErr File × List Action := fun t1 =>
        match u.layer.Open name with
        | .error e => (.error e, t1 ++ [.layerOpen name])
        | .ok lfh => (.ok (.layerFile lfh), t1 ++ [.layerOpen name])
      match st with
      | .cacheLocal => layerOpenTagged t0
      | .cacheMiss =>
          match u.base.Stat name with
          | .error e => (.error e, t0 ++ [.baseStat name])
          | .ok bfi =>
              if bfi.isDir then
                match u.base.Open name with
                | .error e => (.error e, t0 ++ [.baseStat name, .baseOpen name])
                | .ok bfh => (.ok (.baseFile bfh), t0 ++ [.baseStat name, .baseOpen name])
              else
                match u.copyToLayer name with
                | some e => (.error e, t0 ++ [.baseStat name, .copyToLayer name])
                | none => layerOpenTagged (t0 ++ [.baseStat name, .copyToLayer name])
      | .cacheStale =>
          match fi with
          | some f =>
              if !f.isDir then
                match u.copyToLayer name with
                | some e => (.error e, t0 ++ [.copyToLayer name])
                | none => layerOpenTagged (t0 ++ [.copyToLayer name])
              else dirFall t0
          | none => (.error .nilDeref, t0)
      | .cacheHit =>
          match fi with
          | some f =>
              if !f.isDir then layerOpenTagged t0
              else dirFall t0
          | none => (.error .nilDeref, t0)

/-- `Mkdir` (lines 292-298): create in base first; a base error aborts
with the layer untouched; on success the layer uses `MkdirAll` because
the layer may not mirror base's directory tree. -/
def MonCacheOnReadFs.Mkdir (u : MonCacheOnReadFs) (name : String) (perm : Nat) :
    Option GoErr × List Action :=
  match u.base.Mkdir name perm with
  | some e => (some e, [.baseMkdir name perm])
  | none => (u.layer.MkdirAll name perm, [.baseMkdir name perm, .layerMkdirAll name perm])

/-- `MkdirAll` (lines 304-310): base first, abort on base error, then
layer. -/
def MonCacheOnReadFs.MkdirAll (u : MonCacheOnReadFs) (name : String) (perm : Nat) :
    Option GoErr × List Action :=
  match u.base.MkdirAll name perm with
  | some e => (some e, [.baseMkdirAll name perm])
  | none => (u.layer.MkdirAll name perm, [.baseMkdirAll name perm, .layerMkdirAll name perm])

/-- `Create` (lines 312-325): create in base (abort on error), create in
layer (closing the base handle before returning the layer error), and
return the fan-out `UnionFile` of both handles. -/
def MonCacheOnReadFs.Create (u : MonCacheOnReadFs) (name : String) :
    Except GoErr File × List Action :=
  match u.base.Create name with
  | .error e => (.error e, [.baseCreate name])
  | .ok bfh =>
      match u.layer.Create name with
      | .error e => (.error e, [.baseCreate name, .layerCreate name, .baseClose bfh])
      | .ok lfh =>
          (.ok (.unionFile (some bfh) (some lfh)), [.baseCreate name, .layerCreate name])

/-- An fsnotify event received by the watcher: the path and the `Op`
bitmask. -/
structure Event where
  name : String
  op : Nat
deriving DecidableEq, Repr

/-- `fsnotify.Write` (bit 1 of the `Op` bitmask). -/
def fsnotifyWrite : Nat := 2

/-- Whether one iteration of the watcher's event loop continues or
terminates. -/
inductive WatchStep where
  | cont : WatchStep
  | stop : WatchStep
deriving DecidableEq, Repr

/-- One iteration of the watcher's event loop on an fsnotify event
(`monitor`, lines 89-105): ignore non-write events; classify the path,
logging and continuing on a classification error; on `cacheLocal`,
`cacheStale` or `cacheHit` for a non-directory, re-promote, logging and
continuing on a promotion error.  The Go body has no `return` or
`break`, so no branch stops the loop — except that `fi.IsDir()` on a nil
`fi` would panic and kill the process, modelled as `WatchStep.stop`; the
`cacheStatus` invariant makes that branch unreachable. -/
def MonCacheOnReadFs.handleEvent (u : MonCacheOnReadFs) (now : Int) (event : Event) :
    WatchStep × List Action :=
  if event.op &&& fsnotifyWrite = fsnotifyWrite then
    match u.cacheStatus now event.name with
    | ((_, _, some _), t0) => (.cont, t0 ++ [.logLine 1])
    | ((st, fi, none), t0) =>
        match st with
        | .cacheLocal | .cacheStale | .cacheHit =>
            match fi with
            | some f =>
                if !f.isDir then
                  match u.copyToLayer event.name with
                  | some _ => (.cont, t0 ++ [.copyToLayer event.name, .logLine 2])
                  | none => (.cont, t0 ++ [.copyToLayer event.name])
                else (.cont, t0)
            | none => (.stop, t0)
        | .cacheMiss => (.cont, t0)
  else (.cont, [])

/-- One iteration of the watcher's event loop on an fsnotify error
(`monitor`, lines 106-107): log and continue. -/
def MonCacheOnReadFs.handleWatcherErr (_u : MonCacheOnReadFs) (_e : GoErr) :
    WatchStep × List Action :=
  (.cont, [.logLine 3])

/-- `monitor` startup (lines 79-84): if `fsnotify.NewWatcher` fails, the
error is logged and `monitor` returns without ever starting the event
loop; otherwise the loop goroutine is started.  Returns whether the loop
runs. -/
def monitorStarts (newWatcherErr : Option GoErr) : Bool × List Action :=
  match newWatcherErr with
  | some _ => (false, [.logLine 0])
  | none => (true, [])

/-! Concrete backing stores used to instantiate the theorems below. -/

/-- A backing store whose every call succeeds trivially. -/
def okOracle : FsOracle where
  Stat := fun _ => .ok ⟨0, 0, false⟩
  Chtimes := fun _ _ _ => none
  Chmod := fun _ _ => none
  Rename := fun _ _ => none
  Remove := fun _ => none
  RemoveAll := fun _ => none
  Mkdir := fun _ _ => none
  MkdirAll := fun _ _ => none
  Open := fun _ => .ok 0
  OpenFile := fun _ _ _ => .ok 0
  Create := fun _ => .ok 0

/-- Unlimited cache window, every path cached: every path is a
`cacheHit`. -/
def uHit0 : MonCacheOnReadFs where
  base := okOracle
  layer := okOracle
  cacheTime := 0
  promote := fun _ => none

/-- The spec's stale scenario: one-hour window (3600 on the abstract
timeline), layer entry modified at 0, base entry modified at 7200. -/
def uStale : MonCacheOnReadFs where
  base := { okOracle with Stat := fun _ => .ok ⟨0, 7200, false⟩ }
  layer := { okOracle with Stat := fun _ => .ok ⟨0, 0, false⟩ }
  cacheTime := 3600
  promote := fun _ => none

/-- The stale scenario with a failing base: `Chtimes` and `OpenFile` on
base error out. -/
def uStaleBaseErr : MonCacheOnReadFs where
  base := { okOracle with
            Stat := fun _ => .ok ⟨0, 7200, false⟩
            Chtimes := fun _ _ _ => some (.other 3)
            OpenFile := fun _ _ _ => .error (.other 7) }
  layer := { okOracle with Stat := fun _ => .ok ⟨0, 0, false⟩ }
  cacheTime := 3600
  promote := fun _ => none

/-- No layer entry (layer stat gives bare `ENOENT`): every path is a
`cacheMiss`; the layer's removals fail with a not-found-class error. -/
def uMiss : MonCacheOnReadFs where
  base := okOracle
  layer := { okOracle with
             Stat := fun _ => .error .enoent
             Remove := fun _ => some (.other 2)
             RemoveAll := fun _ => some (.other 2) }
  cacheTime := 0
  promote := fun _ => none

/-- A directory present in base only: layer stat gives `ENOENT`, base
stat sees a directory, base open yields handle 7. -/
def uMissDir : MonCacheOnReadFs where
  base := { okOracle with Stat := fun _ => .ok ⟨0, 0, true⟩, Open := fun _ => .ok 7 }
  layer := { okOracle with Stat := fun _ => .error .enoent }
  cacheTime := 0
  promote := fun _ => none

/-- A cached directory, unlimited window: every path is a `cacheHit`
directory; base open yields handle 7, layer open handle 8. -/
def uHitDir : MonCacheOnReadFs where
  base := { okOracle with Open := fun _ => .ok 7 }
  layer := { okOracle with Stat := fun _ => .ok ⟨0, 0, true⟩, Open := fun _ => .ok 8 }
  cacheTime := 0
  promote := fun _ => none

/-- Layer stat fails with a `*os.PathError` wrapping `os.ErrNotExist` —
what afero's in-memory filesystem returns for a missing file. -/
def uPathErr : MonCacheOnReadFs where
  base := okOracle
  layer := { okOracle with Stat := fun _ => .error (.pathError .errNotExist) }
  cacheTime := 0
  promote := fun _ => none

/-- Layer stat fails with a bare non-`ENOENT`, non-`PathError` error. -/
def uOtherErr : MonCacheOnReadFs where
  base := okOracle
  layer := { okOracle with Stat := fun _ => .error (.other 5) }
  cacheTime := 0
  promote := fun _ => none

/-! Claim theorems. -/

/-- C1: for every path with an existing layer entry, `cacheStatus`
returns `cacheHit` with layer metadata when the window is zero or the
entry's modification time plus the window is not yet past (and for
window zero the base is never consulted — no `baseStat` action occurs);
once the window has elapsed it returns `cacheLocal` with layer metadata
and a nil error when the base stat fails, `cacheStale` with base
metadata when base.modTime is strictly newer than layer.modTime, and
`cacheHit` with layer metadata otherwise. -/
theorem C1_cacheStatus_layer_entry_classification
    (u : MonCacheOnReadFs) (now : Int) (name : String) (lfi : FileInfo)
    (hl : u.layer.Stat name = .ok lfi) :
    ((u.cacheTime = 0 ∨ ¬ lfi.modTime + u.cacheTime < now) →
        (u.cacheStatus now name).fst = (.cacheHit, some lfi, none))
    ∧ (u.cacheTime = 0 → Action.baseStat name ∉ (u.cacheStatus now name).snd)
    ∧ (u.cacheTime ≠ 0 → lfi.modTime + u.cacheTime < now →
        (∀ e, u.base.Stat name = .error e →
            (u.cacheStatus now name).fst = (.cacheLocal, some lfi, none))
        ∧ (∀ bfi, u.base.Stat name = .ok bfi →
            ((lfi.modTime < bfi.modTime →
                (u.cacheStatus now name).fst = (.cacheStale, some bfi, none))
             ∧ (¬ lfi.modTime < bfi.modTime →
                (u.cacheStatus now name).fst = (.cacheHit, some lfi, none))))) := by
  unfold MonCacheOnReadFs.cacheStatus
  rw [hl]
  refine ⟨?_, ?_, ?_⟩
  · rintro (h0 | hw)
    · simp [h0]
    · by_cases h0 : u.cacheTime = 0 <;> simp [h0, hw]
  · intro h0
    simp [h0]
  · intro h0 hw
    constructor
    · intro e he
      simp [h0, hw, he]
    · intro bfi hb
      constructor
      · intro hnew
        simp [h0, hw, hb, hnew]
      · intro hnew
        simp [h0, hw, hb, hnew]

/-- Witness for C1 at concrete inputs: `uHit0` (window zero) gives a
hit without consulting base, and `uStale` at time 3601 (window elapsed,
base strictly newer) gives stale with base metadata. -/
theorem C1_cacheStatus_layer_entry_classification_witness :
    (uHit0.cacheStatus 5 "/a").fst = (.cacheHit, some ⟨0, 0, false⟩, none)
    ∧ Action.baseStat "/a" ∉ (uHit0.cacheStatus 5 "/a").snd
    ∧ (uStale.cacheStatus 3601 "/a").fst = (.cacheStale, some ⟨0, 7200, false⟩, none) := by
  refine ⟨?_, ?_, ?_⟩
  · exact (C1_cacheStatus_layer_entry_classification uHit0 5 "/a" ⟨0, 0, false⟩ rfl).1
      (Or.inl rfl)
  · exact (C1_cacheStatus_layer_entry_classification uHit0 5 "/a" ⟨0, 0, false⟩ rfl).2.1 rfl
  · exact (((C1_cacheStatus_layer_entry_classification uStale 3601 "/a" ⟨0, 0, false⟩
      rfl).2.2 (by decide) (by decide)).2 ⟨0, 7200, false⟩ rfl).1 (by decide)

/-- Every result of `cacheStatus` has one of five shapes: a metadata
carrying state (`cacheHit`, `cacheLocal`, `cacheStale`) with nil error,
or `cacheMiss` with nil metadata and a nil or non-nil error. -/
theorem cacheStatus_shape (u : MonCacheOnReadFs) (now : Int) (name : String) :
    (∃ f t, u.cacheStatus now name = ((.cacheHit, some f, none), t))
    ∨ (∃ f t, u.cacheStatus now name = ((.cacheLocal, some f, none), t))
    ∨ (∃ f t, u.cacheStatus now name = ((.cacheStale, some f, none), t))
    ∨ (∃ t, u.cacheStatus now name = ((.cacheMiss, none, none), t))
    ∨ (∃ e t, u.cacheStatus now name = ((.cacheMiss, none, some e), t)) := by
  unfold MonCacheOnReadFs.cacheStatus
  rcases hl : u.layer.Stat name with e | lfi
  · by_cases he : e = GoErr.enoent
    · simp [he]
    · rcases e with _ | _ | c | n | _ | _
      · simp at he
      · simp [he]
      · simp [he]
      · simp [he]
      · simp [he]
      · simp [he]
  · by_cases h0 : u.cacheTime = 0
    · simp [h0]
    · by_cases hw : lfi.modTime + u.cacheTime < now
      · rcases hb : u.base.Stat name with e' | bfi
        · simp [h0, hw, hb]
        · by_cases hnew : lfi.modTime < bfi.modTime
          · simp [h0, hw, hb, hnew]
          · simp [h0, hw, hb, hnew]
      · simp [h0, hw]

/-- C9: whenever `cacheStatus` returns a nil error, the returned
metadata is non-nil exactly when the state is `cacheHit`, `cacheLocal`
or `cacheStale`, and nil exactly when the state is `cacheMiss`; callers
branching on a non-miss state with nil error therefore always hold
non-nil metadata. -/
theorem C9_cacheStatus_metadata_invariant
    (u : MonCacheOnReadFs) (now : Int) (name : String)
    (st : cacheState) (fi : Option FileInfo)
    (h : (u.cacheStatus now name).fst = (st, fi, none)) :
    (fi.isSome = true ↔ (st = .cacheHit ∨ st = .cacheLocal ∨ st = .cacheStale))
    ∧ (fi = none ↔ st = .cacheMiss) := by
  rcases cacheStatus_shape u now name with ⟨f, t, hc⟩ | ⟨f, t, hc⟩ | ⟨f, t, hc⟩
    | ⟨t, hc⟩ | ⟨e, t, hc⟩ <;> rw [hc] at h <;>
    obtain ⟨rfl, rfl, -⟩ := Prod.mk.injEq .. ▸ h <;> simp

/-- Witness for C9: at `uHit0` the state is a hit and the metadata is
present. -/
theorem C9_cacheStatus_metadata_invariant_witness :
    ((some (⟨0, 0, false⟩ : FileInfo)).isSome = true ↔
      ((cacheState.cacheHit = .cacheHit ∨ cacheState.cacheHit = .cacheLocal
        ∨ cacheState.cacheHit = .cacheStale)))
    ∧ ((some (⟨0, 0, false⟩ : FileInfo) = none) ↔ cacheState.cacheHit = .cacheMiss) :=
  C9_cacheStatus_metadata_invariant uHit0 5 "/a" .cacheHit (some ⟨0, 0, false⟩) (by decide)

/-- C7 (code bug evidence): a layer stat failing with a `*os.PathError`
wrapping `os.ErrNotExist` — a not-found-class error — is not classified
as a miss with nil error: the path error is propagated, because a
`*os.PathError` value never compares equal to `os.ErrNotExist` itself.
A layer stat failing with a bare error that is neither `ENOENT` nor a
`*os.PathError` is propagated, but not as that error: the failed
two-value type assertion leaves the typed-nil `*os.PathError` in `err`,
so the caller receives the mangled `nilPathError` instead of the
original error. -/
theorem C7_cacheStatus_error_branch_divergence :
    (uPathErr.cacheStatus 0 "/x").fst =
      (.cacheMiss, none, some (.pathError .errNotExist))
    ∧ (uOtherErr.cacheStatus 0 "/y").fst = (.cacheMiss, none, some .nilPathError) :=
  ⟨by decide, by decide⟩

/-- C2 counterexample: in the spec's stale scenario (window one hour =
3600, layer modTime 0, base modTime 7200, now 3601) `classify` does
return `cacheStale` and `Stat` does return the base metadata with
modTime 7200, but `Stat` performs no promotion: no `copyToLayer` action
occurs in its trace. -/
theorem C2_counterexample_Stat_never_promotes :
    (uStale.cacheStatus 3601 "/a").fst = (.cacheStale, some ⟨0, 7200, false⟩, none)
    ∧ (uStale.Stat 3601 "/a").fst = (some ⟨0, 7200, false⟩, none)
    ∧ Action.copyToLayer "/a" ∉ (uStale.Stat 3601 "/a").snd :=
  ⟨by decide, by decide, by decide⟩

/-- C2 (amended): with a one-hour window (3600), a layer entry with
modTime `T`, a base entry with modTime `T + 7200` and current time
`T + 3601`, `classify` returns `cacheStale` with base metadata, and
`Stat` subsequently returns metadata with modTime `T + 7200` — taken
directly from the oracle's returned base metadata, without triggering a
promotion. -/
theorem C2_stale_scenario_Stat_returns_base_meta
    (u : MonCacheOnReadFs) (name : String) (T : Int) (lfi bfi : FileInfo)
    (hw : u.cacheTime = 3600)
    (hl : u.layer.Stat name = .ok lfi) (hlt : lfi.modTime = T)
    (hb : u.base.Stat name = .ok bfi) (hbt : bfi.modTime = T + 7200) :
    (u.cacheStatus (T + 3601) name).fst = (.cacheStale, some bfi, none)
    ∧ (u.Stat (T + 3601) name).fst = (some bfi, none)
    ∧ Action.copyToLayer name ∉ (u.Stat (T + 3601) name).snd := by
  have h0 : ¬ u.cacheTime = 0 := by rw [hw]; norm_num
  have hwin : lfi.modTime + u.cacheTime < T + 3601 := by rw [hw, hlt]; omega
  have hnew : lfi.modTime < bfi.modTime := by rw [hlt, hbt]; omega
  have hcs : u.cacheStatus (T + 3601) name =
      ((.cacheStale, some bfi, none), [.layerStat name, .baseStat name]) := by
    unfold MonCacheOnReadFs.cacheStatus
    rw [hl]
    simp [h0, hwin, hb, hnew]
  refine ⟨by rw [hcs], ?_, ?_⟩
  · unfold MonCacheOnReadFs.Stat
    rw [hcs]
  · unfold MonCacheOnReadFs.Stat
    rw [hcs]
    simp

/-- Witness for C2 (amended) at `uStale` with `T = 0`. -/
theorem C2_stale_scenario_Stat_returns_base_meta_witness :
    (uStale.cacheStatus (0 + 3601) "/a").fst = (.cacheStale, some ⟨0, 7200, false⟩, none)
    ∧ (uStale.Stat (0 + 3601) "/a").fst = (some ⟨0, 7200, false⟩, none)
    ∧ Action.copyToLayer "/a" ∉ (uStale.Stat (0 + 3601) "/a").snd :=
  C2_stale_scenario_Stat_returns_base_meta uStale "/a" 0 ⟨0, 0, false⟩ ⟨0, 7200, false⟩
    rfl rfl rfl rfl (by decide)

/-- The trace of `cacheStatus` is a layer stat, possibly followed by a
base stat; in particular it never contains a promotion. -/
theorem cacheStatus_trace (u : MonCacheOnReadFs) (now : Int) (name : String) :
    (u.cacheStatus now name).snd = [.layerStat name]
    ∨ (u.cacheStatus now name).snd = [.layerStat name, .baseStat name] := by
  unfold MonCacheOnReadFs.cacheStatus
  rcases hl : u.layer.Stat name with e | lfi
  · by_cases he : e = GoErr.enoent
    · simp [he]
    · rcases e with _ | _ | c | n | _ | _
      · simp at he
      · simp [he]
      · simp [he]
      · simp [he]
      · simp [he]
      · simp [he]
  · by_cases h0 : u.cacheTime = 0
    · simp [h0]
    · by_cases hw : lfi.modTime + u.cacheTime < now
      · rcases hb : u.base.Stat name with e' | bfi
        · simp [h0, hw, hb]
        · by_cases hnew : lfi.modTime < bfi.modTime
          · simp [h0, hw, hb, hnew]
          · simp [h0, hw, hb, hnew]
      · simp [h0, hw]

/-- C3 counterexample: on a path that classifies as `cacheMiss`,
`Remove` applies the verb to base with no preceding promotion — its
trace holds no `copyToLayer` action at all, refuting the claim that
`Remove` promotes before applying the verb to base on `Stale`/`Miss`. -/
theorem C3_counterexample_Remove_does_not_promote :
    (uMiss.cacheStatus 0 "/a").fst = (.cacheMiss, none, none)
    ∧ uMiss.Remove 0 "/a" =
        (some (.other 2), [.layerStat "/a", .baseRemove "/a", .layerRemove "/a"])
    ∧ Action.copyToLayer "/a" ∉ (uMiss.Remove 0 "/a").snd :=
  ⟨by decide, by decide, by decide⟩

/-- C3 (amended): on a path that classifies as `cacheStale` or
`cacheMiss`, `Chtimes`, `Chmod` and `Rename` promote first — the action
right after classification is `copyToLayer`, and when the promotion
succeeds the base-side verb immediately follows — while `Remove` and
`RemoveAll` apply the verb to base directly and never promote. -/
theorem C3_stale_miss_promotion_policy
    (u : MonCacheOnReadFs) (now : Int) (name newname : String)
    (atime mtime : Int) (mode : Nat)
    (st : cacheState) (fi : Option FileInfo) (t0 : List Action)
    (hcs : u.cacheStatus now name = ((st, fi, none), t0))
    (hst : st = .cacheStale ∨ st = .cacheMiss) :
    (∃ rest, (u.Chtimes now name atime mtime).snd = t0 ++ .copyToLayer name :: rest
      ∧ (u.copyToLayer name = none → ∃ r2, rest = .baseChtimes name atime mtime :: r2))
    ∧ (∃ rest, (u.Chmod now name mode).snd = t0 ++ .copyToLayer name :: rest
      ∧ (u.copyToLayer name = none → ∃ r2, rest = .baseChmod name mode :: r2))
    ∧ (∃ rest, (u.Rename now name newname).snd = t0 ++ .copyToLayer name :: rest
      ∧ (u.copyToLayer name = none → ∃ r2, rest = .baseRename name newname :: r2))
    ∧ ((∃ rest, (u.Remove now name).snd = t0 ++ .baseRemove name :: rest)
      ∧ Action.copyToLayer name ∉ (u.Remove now name).snd)
    ∧ ((∃ rest, (u.RemoveAll now name).snd = t0 ++ .baseRemoveAll name :: rest)
      ∧ Action.copyToLayer name ∉ (u.RemoveAll now name).snd) := by
  have ht0 : (u.cacheStatus now name).snd = t0 := by rw [hcs]
  have hnc : Action.copyToLayer name ∉ t0 := by
    rcases cacheStatus_trace u now name with h1 | h1 <;>
      rw [ht0.symm.trans h1] <;> simp
  refine ⟨?_, ?_, ?_, ?_, ?_⟩
  · unfold MonCacheOnReadFs.Chtimes
    rw [hcs]
    rcases hst with rfl | rfl <;>
    · rcases hp : u.copyToLayer name with _ | e
      · rcases hb : u.base.Chtimes name atime mtime with _ | e2
        · exact ⟨[.baseChtimes name atime mtime, .layerChtimes name atime mtime], rfl,
            fun _ => ⟨[.layerChtimes name atime mtime], rfl⟩⟩
        · exact ⟨[.baseChtimes name atime mtime], rfl, fun _ => ⟨[], rfl⟩⟩
      · exact ⟨[], rfl, fun hn => absurd hn (by simp)⟩
  · unfold MonCacheOnReadFs.Chmod
    rw [hcs]
    rcases hst with rfl | rfl <;>
    · rcases hp : u.copyToLayer name with _ | e
      · rcases hb : u.base.Chmod name mode with _ | e2
        · exact ⟨[.baseChmod name mode, .layerChmod name mode], rfl,
            fun _ => ⟨[.layerChmod name mode], rfl⟩⟩
        · exact ⟨[.baseChmod name mode], rfl, fun _ => ⟨[], rfl⟩⟩
      · exact ⟨[], rfl, fun hn => absurd hn (by simp)⟩
  · unfold MonCacheOnReadFs.Rename
    rw [hcs]
    rcases hst with rfl | rfl <;>
    · rcases hp : u.copyToLayer name with _ | e
      · rcases hb : u.base.Rename name newname with _ | e2
        · exact ⟨[.baseRename name newname, .layerRename name newname], rfl,
            fun _ => ⟨[.layerRename name newname], rfl⟩⟩
        · exact ⟨[.baseRename name newname], rfl, fun _ => ⟨[], rfl⟩⟩
      · exact ⟨[], rfl, fun hn => absurd hn (by simp)⟩
  · constructor
    · unfold MonCacheOnReadFs.Remove
      rw [hcs]
      rcases hst with rfl | rfl <;>
      · rcases hb : u.base.Remove name with _ | e2
        · exact ⟨[.layerRemove name], rfl⟩
        · exact ⟨[], rfl⟩
    · unfold MonCacheOnReadFs.Remove
      rw [hcs]
      rcases hst with rfl | rfl <;>
      · rcases hb : u.base.Remove name with _ | e2 <;> simp [hnc]
  · constructor
    · unfold MonCacheOnReadFs.RemoveAll
      rw [hcs]
      rcases hst with rfl | rfl <;>
      · rcases hb : u.base.RemoveAll name with _ | e2
        · exact ⟨[.layerRemoveAll name], rfl⟩
        · exact ⟨[], rfl⟩
    · unfold MonCacheOnReadFs.RemoveAll
      rw [hcs]
      rcases hst with rfl | rfl <;>
      · rcases hb : u.base.RemoveAll name with _ | e2 <;> simp [hnc]

/-- Witness for C3 (amended) at `uStale`: `Remove` performs no
promotion, and `Chtimes` promotes right after classification and then
applies the verb to base. -/
theorem C3_stale_miss_promotion_policy_witness :
    Action.copyToLayer "/a" ∉ (uStale.Remove 3601 "/a").snd
    ∧ (uStale.Chtimes 3601 "/a" 1 2).snd =
        [.layerStat "/a", .baseStat "/a", .copyToLayer "/a", .baseChtimes "/a" 1 2,
         .layerChtimes "/a" 1 2] := by
  have h := C3_stale_miss_promotion_policy uStale 3601 "/a" "/b" 1 2 7 .cacheStale
    (some ⟨0, 7200, false⟩) [.layerStat "/a", .baseStat "/a"] (by decide) (Or.inl rfl)
  exact ⟨h.2.2.2.1.2, by decide⟩

/-- C4 counterexample: `Chtimes` on a stale path — the promotion
succeeds and writes the layer, then the base-side `Chtimes` fails; the
operation aborts with the base error, but the trace holds a
`copyToLayer` action, a layer-writing action, so the layer was not left
untouched by the aborted operation. -/
theorem C4_counterexample_base_error_after_promotion :
    uStaleBaseErr.Chtimes 3601 "/a" 1 2 =
      (some (.other 3),
       [.layerStat "/a", .baseStat "/a", .copyToLayer "/a", .baseChtimes "/a" 1 2])
    ∧ Action.copyToLayer "/a" ∈ (uStaleBaseErr.Chtimes 3601 "/a" 1 2).snd
    ∧ (Action.copyToLayer "/a").writesLayer = true :=
  ⟨by decide, by decide, by decide⟩

/-- C4 (amended): for every mutating verb, a base-side error aborts the
operation with the base error and the verb is never applied to the
layer — the trace ends at the failed base action — although for
`Chtimes`/`Chmod`/`Rename` on a `Stale`/`Miss` path the preceding
promotion has already written the layer; when base succeeds the same
verb is then applied to the layer, except that `Mkdir` uses the layer's
`MkdirAll` variant.  `t1` is the trace up to the base call: the
classification trace `t0`, extended by the successful promotion on
`Stale`/`Miss`. -/
theorem C4_base_error_aborts_layer_untouched_by_verb
    (u : MonCacheOnReadFs) (now : Int) (name newname : String)
    (atime mtime : Int) (mode perm : Nat)
    (st : cacheState) (fi : Option FileInfo) (t0 t1 : List Action)
    (hcs : u.cacheStatus now name = ((st, fi, none), t0))
    (hpre : (st = .cacheHit ∧ t1 = t0)
      ∨ ((st = .cacheStale ∨ st = .cacheMiss) ∧ u.copyToLayer name = none
          ∧ t1 = t0 ++ [.copyToLayer name])) :
    ((∀ e, u.base.Chtimes name atime mtime = some e →
        u.Chtimes now name atime mtime = (some e, t1 ++ [.baseChtimes name atime mtime]))
     ∧ (u.base.Chtimes name atime mtime = none →
        u.Chtimes now name atime mtime =
          (u.layer.Chtimes name atime mtime,
           t1 ++ [.baseChtimes name atime mtime, .layerChtimes name atime mtime])))
    ∧ ((∀ e, u.base.Chmod name mode = some e →
        u.Chmod now name mode = (some e, t1 ++ [.baseChmod name mode]))
     ∧ (u.base.Chmod name mode = none →
        u.Chmod now name mode =
          (u.layer.Chmod name mode,
           t1 ++ [.baseChmod name mode, .layerChmod name mode])))
    ∧ ((∀ e, u.base.Rename name newname = some e →
        u.Rename now name newname = (some e, t1 ++ [.baseRename name newname]))
     ∧ (u.base.Rename name newname = none →
        u.Rename now name newname =
          (u.layer.Rename name newname,
           t1 ++ [.baseRename name newname, .layerRename name newname])))
    ∧ ((∀ e, u.base.Remove name = some e →
        u.Remove now name = (some e, t0 ++ [.baseRemove name]))
     ∧ (u.base.Remove name = none →
        u.Remove now name =
          (u.layer.Remove name, t0 ++ [.baseRemove name, .layerRemove name])))
    ∧ ((∀ e, u.base.RemoveAll name = some e →
        u.RemoveAll now name = (some e, t0 ++ [.baseRemoveAll name]))
     ∧ (u.base.RemoveAll name = none →
        u.RemoveAll now name =
          (u.layer.RemoveAll name, t0 ++ [.baseRemoveAll name, .layerRemoveAll name])))
    ∧ ((∀ e, u.base.Mkdir name perm = some e →
        u.Mkdir name perm = (some e, [.baseMkdir name perm]))
     ∧ (u.base.Mkdir name perm = none →
        u.Mkdir name perm =
          (u.layer.MkdirAll name perm, [.baseMkdir name perm, .layerMkdirAll name perm])))
    ∧ ((∀ e, u.base.MkdirAll name perm = some e →
        u.MkdirAll name perm = (some e, [.baseMkdirAll name perm]))
     ∧ (u.base.MkdirAll name perm = none →
        u.MkdirAll name perm =
          (u.layer.MkdirAll name perm,
           [.baseMkdirAll name perm, .layerMkdirAll name perm]))) := by
  refine ⟨⟨?_, ?_⟩, ⟨?_, ?_⟩, ⟨?_, ?_⟩, ⟨?_, ?_⟩, ⟨?_, ?_⟩, ⟨?_, ?_⟩, ⟨?_, ?_⟩⟩
  · intro e hb
    unfold MonCacheOnReadFs.Chtimes
    rw [hcs]
    rcases hpre with ⟨rfl, rfl⟩ | ⟨rfl | rfl, hp, rfl⟩
    · simp [hb]
    · simp [hp, hb]
    · simp [hp, hb]
  · intro hb
    unfold MonCacheOnReadFs.Chtimes
    rw [hcs]
    rcases hpre with ⟨rfl, rfl⟩ | ⟨rfl | rfl, hp, rfl⟩
    · simp [hb]
    · simp [hp, hb]
    · simp [hp, hb]
  · intro e hb
    unfold MonCacheOnReadFs.Chmod
    rw [hcs]
    rcases hpre with ⟨rfl, rfl⟩ | ⟨rfl | rfl, hp, rfl⟩
    · simp [hb]
    · simp [hp, hb]
    · simp [hp, hb]
  · intro hb
    unfold MonCacheOnReadFs.Chmod
    rw [hcs]
    rcases hpre with ⟨rfl, rfl⟩ | ⟨rfl | rfl, hp, rfl⟩
    · simp [hb]
    · simp [hp, hb]
    · simp [hp, hb]
  · intro e hb
    unfold MonCacheOnReadFs.Rename
    rw [hcs]
    rcases hpre with ⟨rfl, rfl⟩ | ⟨rfl | rfl, hp, rfl⟩
    · simp [hb]
    · simp [hp, hb]
    · simp [hp, hb]
  · intro hb
    unfold MonCacheOnReadFs.Rename
    rw [hcs]
    rcases hpre with ⟨rfl, rfl⟩ | ⟨rfl | rfl, hp, rfl⟩
    · simp [hb]
    · simp [hp, hb]
    · simp [hp, hb]
  · intro e hb
    unfold MonCacheOnReadFs.Remove
    rw [hcs]
    rcases hpre with ⟨rfl, rfl⟩ | ⟨rfl | rfl, hp, rfl⟩ <;> simp [hb]
  · intro hb
    unfold MonCacheOnReadFs.Remove
    rw [hcs]
    rcases hpre with ⟨rfl, rfl⟩ | ⟨rfl | rfl, hp, rfl⟩ <;> simp [hb]
  · intro e hb
    unfold MonCacheOnReadFs.RemoveAll
    rw [hcs]
    rcases hpre with ⟨rfl, rfl⟩ | ⟨rfl | rfl, hp, rfl⟩ <;> simp [hb]
  · intro hb
    unfold MonCacheOnReadFs.RemoveAll
    rw [hcs]
    rcases hpre with ⟨rfl, rfl⟩ | ⟨rfl | rfl, hp, rfl⟩ <;> simp [hb]
  · intro e hb
    unfold MonCacheOnReadFs.Mkdir
    rw [hb]
  · intro hb
    unfold MonCacheOnReadFs.Mkdir
    rw [hb]
  · intro e hb
    unfold MonCacheOnReadFs.MkdirAll
    rw [hb]
  · intro hb
    unfold MonCacheOnReadFs.MkdirAll
    rw [hb]

/-- Witness for C4 (amended): the base-error case at `uStaleBaseErr`
(stale path, promotion succeeds, base `Chtimes` fails) and the
base-success case at `uHit0`. -/
theorem C4_base_error_aborts_layer_untouched_by_verb_witness :
    uStaleBaseErr.Chtimes 3601 "/a" 1 2 =
      (some (.other 3),
       ([.layerStat "/a", .baseStat "/a"] ++ [.copyToLayer "/a"]) ++ [.baseChtimes "/a" 1 2])
    ∧ uHit0.Mkdir "/d" 7 = (none, [.baseMkdir "/d" 7, .layerMkdirAll "/d" 7]) := by
  have h1 := C4_base_error_aborts_layer_untouched_by_verb uStaleBaseErr 3601 "/a" "/b"
    1 2 7 7 .cacheStale (some ⟨0, 7200, false⟩) [.layerStat "/a", .baseStat "/a"]
    ([.layerStat "/a", .baseStat "/a"] ++ [.copyToLayer "/a"]) (by decide)
    (Or.inr ⟨Or.inl rfl, rfl, rfl⟩)
  have h2 := C4_base_error_aborts_layer_untouched_by_verb uHit0 0 "/d" "/e"
    1 2 7 7 .cacheHit (some ⟨0, 0, false⟩) [.layerStat "/d"] [.layerStat "/d"]
    (by decide) (Or.inl ⟨rfl, rfl⟩)
  exact ⟨h1.1.1 (.other 3) rfl, h2.2.2.2.2.2.1.2 rfl⟩

/-- C5 counterexample: a write-class `OpenFile` on a stale path — the
promotion succeeds and writes the layer, then the base open fails; the
operation aborts with the base error, but the trace holds a
`copyToLayer` action, a layer-writing action, so the abort did not leave
the layer untouched. -/
theorem C5_counterexample_base_open_error_after_promotion :
    uStaleBaseErr.OpenFile 3601 "/a" 1 0 =
      (.error (.other 7),
       [.layerStat "/a", .baseStat "/a", .copyToLayer "/a", .baseOpenFile "/a" 1 0])
    ∧ Action.copyToLayer "/a" ∈ (uStaleBaseErr.OpenFile 3601 "/a" 1 0).snd
    ∧ (Action.copyToLayer "/a").writesLayer = true :=
  ⟨by decide, by decide, by decide⟩

/-- C5 (amended): for `Create` always and for `OpenFile` with any
write-class flag (after a nil-error classification and, on
`Stale`/`Miss`, a successful promotion — which has already written the
layer): both stores are opened and a fan-out `UnionFile` wrapping both
is returned; if the base open/create fails the operation aborts with no
further layer action (in particular the layer is never opened, and for
`Create` it is not touched at all); if the layer open/create fails after
base succeeded, the base handle is closed before the error is
returned. -/
theorem C5_write_open_fanout_policy
    (u : MonCacheOnReadFs) (now : Int) (name : String) (flag perm : Nat)
    (st : cacheState) (fi : Option FileInfo) (t0 t1 : List Action)
    (hcs : u.cacheStatus now name = ((st, fi, none), t0))
    (hpre : ((st = .cacheLocal ∨ st = .cacheHit) ∧ t1 = t0)
      ∨ ((st = .cacheStale ∨ st = .cacheMiss) ∧ u.copyToLayer name = none
          ∧ t1 = t0 ++ [.copyToLayer name]))
    (hwf : flag &&& (O_WRONLY ||| O_RDWR ||| O_APPEND ||| O_CREATE ||| O_TRUNC) ≠ 0) :
    (∀ e, u.base.OpenFile name flag perm = .error e →
        u.OpenFile now name flag perm = (.error e, t1 ++ [.baseOpenFile name flag perm]))
    ∧ (∀ b e, u.base.OpenFile name flag perm = .ok b →
        u.layer.OpenFile name flag perm = .error e →
        u.OpenFile now name flag perm =
          (.error e, t1 ++ [.baseOpenFile name flag perm, .layerOpenFile name flag perm,
                            .baseClose b]))
    ∧ (∀ b l, u.base.OpenFile name flag perm = .ok b →
        u.layer.OpenFile name flag perm = .ok l →
        u.OpenFile now name flag perm =
          (.ok (.unionFile (some b) (some l)),
           t1 ++ [.baseOpenFile name flag perm, .layerOpenFile name flag perm]))
    ∧ (∀ e, u.base.Create name = .error e → u.Create name = (.error e, [.baseCreate name]))
    ∧ (∀ b e, u.base.Create name = .ok b → u.layer.Create name = .error e →
        u.Create name = (.error e, [.baseCreate name, .layerCreate name, .baseClose b]))
    ∧ (∀ b l, u.base.Create name = .ok b → u.layer.Create name = .ok l →
        u.Create name = (.ok (.unionFile (some b) (some l)),
                         [.baseCreate name, .layerCreate name])) := by
  refine ⟨?_, ?_, ?_, ?_, ?_, ?_⟩
  · intro e hb
    unfold MonCacheOnReadFs.OpenFile
    rw [hcs]
    rcases hpre with ⟨rfl | rfl, rfl⟩ | ⟨rfl | rfl, hp, rfl⟩ <;> simp_all
  · intro b e hb hl
    unfold MonCacheOnReadFs.OpenFile
    rw [hcs]
    rcases hpre with ⟨rfl | rfl, rfl⟩ | ⟨rfl | rfl, hp, rfl⟩ <;> simp_all
  · intro b l hb hl
    unfold MonCacheOnReadFs.OpenFile
    rw [hcs]
    rcases hpre with ⟨rfl | rfl, rfl⟩ | ⟨rfl | rfl, hp, rfl⟩ <;> simp_all
  · intro e hb
    unfold MonCacheOnReadFs.Create
    rw [hb]
  · intro b e hb hl
    unfold MonCacheOnReadFs.Create
    rw [hb, hl]
  · intro b l hb hl
    unfold MonCacheOnReadFs.Create
    rw [hb, hl]

/-- Witness for C5 (amended): the base-open-failure case at
`uStaleBaseErr` and the all-success fan-out cases at `uHit0`. -/
theorem C5_write_open_fanout_policy_witness :
    uStaleBaseErr.OpenFile 3601 "/a" 1 0 =
      (.error (.other 7),
       ([.layerStat "/a", .baseStat "/a"] ++ [.copyToLayer "/a"])
         ++ [.baseOpenFile "/a" 1 0])
    ∧ uHit0.OpenFile 0 "/a" 1 0 =
        (.ok (.unionFile (some 0) (some 0)),
         [.layerStat "/a"] ++ [.baseOpenFile "/a" 1 0, .layerOpenFile "/a" 1 0])
    ∧ uHit0.Create "/a" =
        (.ok (.unionFile (some 0) (some 0)), [.baseCreate "/a", .layerCreate "/a"]) := by
  have h1 := C5_write_open_fanout_policy uStaleBaseErr 3601 "/a" 1 0 .cacheStale
    (some ⟨0, 7200, false⟩) [.layerStat "/a", .baseStat "/a"]
    ([.layerStat "/a", .baseStat "/a"] ++ [.copyToLayer "/a"]) (by decide)
    (Or.inr ⟨Or.inl rfl, rfl, rfl⟩) (by decide)
  have h2 := C5_write_open_fanout_policy uHit0 0 "/a" 1 0 .cacheHit
    (some ⟨0, 0, false⟩) [.layerStat "/a"] [.layerStat "/a"] (by decide)
    (Or.inl ⟨Or.inr rfl, rfl⟩) (by decide)
  exact ⟨h1.1 (.other 7) rfl, h2.2.2.1 0 0 rfl rfl, h2.2.2.2.2.2 0 0 rfl rfl⟩

/-- C6 counterexample: `Open` on a directory that classifies as
`cacheMiss` (present in base only) returns the base directory handle
directly — no fan-out handle, and the layer is never opened — refuting
the claim that `Miss` directories fall through to a combined handle. -/
theorem C6_counterexample_miss_directory_opens_base_only :
    (uMissDir.cacheStatus 0 "/d").fst = (.cacheMiss, none, none)
    ∧ uMissDir.Open 0 "/d" =
        (.ok (.baseFile 7), [.layerStat "/d", .baseStat "/d", .baseOpen "/d"])
    ∧ Action.layerOpen "/d" ∉ (uMissDir.Open 0 "/d").snd :=
  ⟨by decide, by decide, by decide⟩

/-- C6 (amended): `Open` on a directory falls through to the combined
fan-out handle wrapping both directory streams on `cacheHit` and
`cacheStale` only — a handle is still returned when the layer open
fails but the base open succeeded (and also when base fails but layer
succeeds), and an error is returned only when both fail; on `cacheMiss`
the directory is opened directly from base and no fan-out handle is
built. -/
theorem C6_directory_open_fallthrough
    (u : MonCacheOnReadFs) (now : Int) (name : String)
    (st : cacheState) (fi : Option FileInfo) (t0 : List Action)
    (hcs : u.cacheStatus now name = ((st, fi, none), t0)) :
    (∀ f, fi = some f → f.isDir = true → (st = .cacheHit ∨ st = .cacheStale) →
      (∀ b l, u.base.Open name = .ok b → u.layer.Open name = .ok l →
          u.Open now name =
            (.ok (.unionFile (some b) (some l)), t0 ++ [.baseOpen name, .layerOpen name]))
      ∧ (∀ b e, u.base.Open name = .ok b → u.layer.Open name = .error e →
          u.Open now name =
            (.ok (.unionFile (some b) none), t0 ++ [.baseOpen name, .layerOpen name]))
      ∧ (∀ eb l, u.base.Open name = .error eb → u.layer.Open name = .ok l →
          u.Open now name =
            (.ok (.unionFile none (some l)), t0 ++ [.baseOpen name, .layerOpen name]))
      ∧ (∀ eb el, u.base.Open name = .error eb → u.layer.Open name = .error el →
          u.Open now name = (.error el, t0 ++ [.baseOpen name, .layerOpen name])))
    ∧ (st = .cacheMiss → ∀ bfi, u.base.Stat name = .ok bfi → bfi.isDir = true →
      (∀ b, u.base.Open name = .ok b →
          u.Open now name = (.ok (.baseFile b), t0 ++ [.baseStat name, .baseOpen name]))
      ∧ (∀ e, u.base.Open name = .error e →
          u.Open now name = (.error e, t0 ++ [.baseStat name, .baseOpen name]))) := by
  constructor
  · rintro f rfl hdir (rfl | rfl) <;>
      exact ⟨fun b l hb hl => by
          unfold MonCacheOnReadFs.Open; rw [hcs]; simp_all [Except.toOption],
        fun b e hb hl => by
          unfold MonCacheOnReadFs.Open; rw [hcs]; simp_all [Except.toOption],
        fun eb l hb hl => by
          unfold MonCacheOnReadFs.Open; rw [hcs]; simp_all [Except.toOption],
        fun eb el hb hl => by
          unfold MonCacheOnReadFs.Open; rw [hcs]; simp_all [Except.toOption]⟩
  · rintro rfl bfi hbs hdir
    exact ⟨fun b hb => by unfold MonCacheOnReadFs.Open; rw [hcs]; simp_all,
      fun e hb => by unfold MonCacheOnReadFs.Open; rw [hcs]; simp_all⟩

/-- Witness for C6 (amended): a cached directory (`uHitDir`) yields the
fan-out handle over both stores, a base-only directory (`uMissDir`)
yields the plain base handle. -/
theorem C6_directory_open_fallthrough_witness :
    uHitDir.Open 0 "/d" =
      (.ok (.unionFile (some 7) (some 8)),
       [.layerStat "/d"] ++ [.baseOpen "/d", .layerOpen "/d"])
    ∧ uMissDir.Open 0 "/d" =
        (.ok (.baseFile 7),
         [.layerStat "/d"] ++ [.baseStat "/d", .baseOpen "/d"]) := by
  have h1 := C6_directory_open_fallthrough uHitDir 0 "/d" .cacheHit
    (some ⟨0, 0, true⟩) [.layerStat "/d"] (by decide)
  have h2 := C6_directory_open_fallthrough uMissDir 0 "/d" .cacheMiss none
    [.layerStat "/d"] (by decide)
  exact ⟨(h1.1 ⟨0, 0, true⟩ rfl rfl (Or.inl rfl)).1 7 8 rfl rfl,
    (h2.2 rfl ⟨0, 0, true⟩ rfl rfl).1 7 rfl⟩

/-- C10: on a path that exists in base but classifies as `cacheMiss`,
`Remove` and `RemoveAll` delete from base and then attempt the same
deletion on the layer, returning the layer's error to the caller even
though the base deletion already succeeded — the trace shows the base
deletion performed with no subsequent base action undoing it. -/
theorem C10_miss_remove_returns_layer_error
    (u : MonCacheOnReadFs) (now : Int) (name : String)
    (fi : Option FileInfo) (t0 : List Action) (bfi : FileInfo) (e e2 : GoErr)
    (hcs : u.cacheStatus now name = ((.cacheMiss, fi, none), t0))
    (_hbs : u.base.Stat name = .ok bfi)
    (hbr : u.base.Remove name = none) (hlr : u.layer.Remove name = some e)
    (hbra : u.base.RemoveAll name = none) (hlra : u.layer.RemoveAll name = some e2) :
    u.Remove now name = (some e, t0 ++ [.baseRemove name, .layerRemove name])
    ∧ u.RemoveAll now name =
        (some e2, t0 ++ [.baseRemoveAll name, .layerRemoveAll name]) := by
  constructor
  · unfold MonCacheOnReadFs.Remove
    rw [hcs]
    simp [hbr, hlr]
  · unfold MonCacheOnReadFs.RemoveAll
    rw [hcs]
    simp [hbra, hlra]

/-- Witness for C10 at `uMiss`: base removal succeeds, the layer's
not-found-class error is returned. -/
theorem C10_miss_remove_returns_layer_error_witness :
    uMiss.Remove 0 "/a" =
      (some (.other 2), [.layerStat "/a"] ++ [.baseRemove "/a", .layerRemove "/a"])
    ∧ uMiss.RemoveAll 0 "/a" =
        (some (.other 2), [.layerStat "/a"] ++ [.baseRemoveAll "/a", .layerRemoveAll "/a"]) :=
  C10_miss_remove_returns_layer_error uMiss 0 "/a" none [.layerStat "/a"]
    ⟨0, 0, false⟩ (.other 2) (.other 2) (by decide) rfl rfl rfl rfl rfl

/-- C8: one iteration of the watcher's event loop never stops the loop,
whatever the event, the path's classification or the promotion outcome —
classification and promotion errors are only logged; a re-promotion
(`copyToLayer`) occurs in the iteration exactly when the event is
write-class, classification returns a nil error with state `cacheLocal`,
`cacheStale` or `cacheHit`, and the path's metadata is not a directory;
an error from the watcher's error channel is also only logged; and only
a `NewWatcher` failure at construction prevents the loop from ever
starting. -/
theorem C8_watcher_resilience (u : MonCacheOnReadFs) (now : Int) (ev : Event)
    (e : GoErr) (werr : Option GoErr) :
    (u.handleEvent now ev).fst = .cont
    ∧ (Action.copyToLayer ev.name ∈ (u.handleEvent now ev).snd ↔
        (ev.op &&& fsnotifyWrite = fsnotifyWrite
         ∧ ∃ st f t, u.cacheStatus now ev.name = ((st, some f, none), t)
            ∧ (st = .cacheLocal ∨ st = .cacheStale ∨ st = .cacheHit)
            ∧ f.isDir = false))
    ∧ (u.handleWatcherErr e).fst = .cont
    ∧ ((monitorStarts werr).fst = false ↔ werr ≠ none) := by
  have hmon : (monitorStarts werr).fst = false ↔ werr ≠ none := by
    cases werr <;> simp [monitorStarts]
  have hnot0 : Action.copyToLayer ev.name ∉ (u.cacheStatus now ev.name).snd := by
    rcases cacheStatus_trace u now ev.name with h | h <;> rw [h] <;> simp
  by_cases hop : ev.op &&& fsnotifyWrite = fsnotifyWrite
  · rcases cacheStatus_shape u now ev.name with ⟨f, t, hc⟩ | ⟨f, t, hc⟩ | ⟨f, t, hc⟩
      | ⟨t, hc⟩ | ⟨e2, t, hc⟩
    · -- cacheHit
      have hnt : Action.copyToLayer ev.name ∉ t := by rw [hc] at hnot0; exact hnot0
      by_cases hdir : f.isDir = true
      · have hres : u.handleEvent now ev = (.cont, t) := by
          unfold MonCacheOnReadFs.handleEvent
          simp [hop, hc, hdir]
        refine ⟨by rw [hres], ?_, rfl, hmon⟩
        rw [hres]
        constructor
        · exact fun hmem => absurd hmem hnt
        · rintro ⟨-, st', f', t', heq, -, hfd⟩
          have heq2 := hc.symm.trans heq
          simp only [Prod.mk.injEq] at heq2
          obtain ⟨⟨-, hf, -⟩, -⟩ := heq2
          rw [← Option.some.inj hf] at hfd
          rw [hdir] at hfd
          cases hfd
      · have hdir' : f.isDir = false := by simpa using hdir
        rcases hp : u.copyToLayer ev.name with _ | e3
        · have hres : u.handleEvent now ev = (.cont, t ++ [.copyToLayer ev.name]) := by
            unfold MonCacheOnReadFs.handleEvent
            simp [hop, hc, hdir', hp]
          refine ⟨by rw [hres], ?_, rfl, hmon⟩
          rw [hres]
          simp only [List.mem_append, List.mem_singleton, or_true, true_iff]
          exact ⟨hop, .cacheHit, f, t, hc, Or.inr (Or.inr rfl), hdir'⟩
        · have hres : u.handleEvent now ev =
              (.cont, t ++ [.copyToLayer ev.name, .logLine 2]) := by
            unfold MonCacheOnReadFs.handleEvent
            simp [hop, hc, hdir', hp]
          refine ⟨by rw [hres], ?_, rfl, hmon⟩
          rw [hres]
          constructor
          · exact fun _ => ⟨hop, .cacheHit, f, t, hc, Or.inr (Or.inr rfl), hdir'⟩
          · exact fun _ => by simp
    · -- cacheLocal
      have hnt : Action.copyToLayer ev.name ∉ t := by rw [hc] at hnot0; exact hnot0
      by_cases hdir : f.isDir = true
      · have hres : u.handleEvent now ev = (.cont, t) := by
          unfold MonCacheOnReadFs.handleEvent
          simp [hop, hc, hdir]
        refine ⟨by rw [hres], ?_, rfl, hmon⟩
        rw [hres]
        constructor
        · exact fun hmem => absurd hmem hnt
        · rintro ⟨-, st', f', t', heq, -, hfd⟩
          have heq2 := hc.symm.trans heq
          simp only [Prod.mk.injEq] at heq2
          obtain ⟨⟨-, hf, -⟩, -⟩ := heq2
          rw [← Option.some.inj hf] at hfd
          rw [hdir] at hfd
          cases hfd
      · have hdir' : f.isDir = false := by simpa using hdir
        rcases hp : u.copyToLayer ev.name with _ | e3
        · have hres : u.handleEvent now ev = (.cont, t ++ [.copyToLayer ev.name]) := by
            unfold MonCacheOnReadFs.handleEvent
            simp [hop, hc, hdir', hp]
          refine ⟨by rw [hres], ?_, rfl, hmon⟩
          rw [hres]
          simp only [List.mem_append, List.mem_singleton, or_true, true_iff]
          exact ⟨hop, .cacheLocal, f, t, hc, Or.inl rfl, hdir'⟩
        · have hres : u.handleEvent now ev =
              (.cont, t ++ [.copyToLayer ev.name, .logLine 2]) := by
            unfold MonCacheOnReadFs.handleEvent
            simp [hop, hc, hdir', hp]
          refine ⟨by rw [hres], ?_, rfl, hmon⟩
          rw [hres]
          constructor
          · exact fun _ => ⟨hop, .cacheLocal, f, t, hc, Or.inl rfl, hdir'⟩
          · exact fun _ => by simp
    · -- cacheStale
      have hnt : Action.copyToLayer ev.name ∉ t := by rw [hc] at hnot0; exact hnot0
      by_cases hdir : f.isDir = true
      · have hres : u.handleEvent now ev = (.cont, t) := by
          unfold MonCacheOnReadFs.handleEvent
          simp [hop, hc, hdir]
        refine ⟨by rw [hres], ?_, rfl, hmon⟩
        rw [hres]
        constructor
        · exact fun hmem => absurd hmem hnt
        · rintro ⟨-, st', f', t', heq, -, hfd⟩
          have heq2 := hc.symm.trans heq
          simp only [Prod.mk.injEq] at heq2
          obtain ⟨⟨-, hf, -⟩, -⟩ := heq2
          rw [← Option.some.inj hf] at hfd
          rw [hdir] at hfd
          cases hfd
      · have hdir' : f.isDir = false := by simpa using hdir
        rcases hp : u.copyToLayer ev.name with _ | e3
        · have hres : u.handleEvent now ev = (.cont, t ++ [.copyToLayer ev.name]) := by
            unfold MonCacheOnReadFs.handleEvent
            simp [hop, hc, hdir', hp]
          refine ⟨by rw [hres], ?_, rfl, hmon⟩
          rw [hres]
          simp only [List.mem_append, List.mem_singleton, or_true, true_iff]
          exact ⟨hop, .cacheStale, f, t, hc, Or.inr (Or.inl rfl), hdir'⟩
        · have hres : u.handleEvent now ev =
              (.cont, t ++ [.copyToLayer ev.name, .logLine 2]) := by
            unfold MonCacheOnReadFs.handleEvent
            simp [hop, hc, hdir', hp]
          refine ⟨by rw [hres], ?_, rfl, hmon⟩
          rw [hres]
          constructor
          · exact fun _ => ⟨hop, .cacheStale, f, t, hc, Or.inr (Or.inl rfl), hdir'⟩
          · exact fun _ => by simp
    · -- cacheMiss, nil error
      have hnt : Action.copyToLayer ev.name ∉ t := by rw [hc] at hnot0; exact hnot0
      have hres : u.handleEvent now ev = (.cont, t) := by
        unfold MonCacheOnReadFs.handleEvent
        simp [hop, hc]
      refine ⟨by rw [hres], ?_, rfl, hmon⟩
      rw [hres]
      constructor
      · exact fun hmem => absurd hmem hnt
      · rintro ⟨-, st', f', t', heq, -, -⟩
        have heq2 := hc.symm.trans heq
        simp only [Prod.mk.injEq] at heq2
        exact absurd heq2.1.2.1 (by simp)
    · -- cacheMiss, propagated error: the iteration only logs
      have hnt : Action.copyToLayer ev.name ∉ t := by rw [hc] at hnot0; exact hnot0
      have hres : u.handleEvent now ev = (.cont, t ++ [.logLine 1]) := by
        unfold MonCacheOnReadFs.handleEvent
        simp [hop, hc]
      refine ⟨by rw [hres], ?_, rfl, hmon⟩
      rw [hres]
      constructor
      · intro hmem
        rcases List.mem_append.mp hmem with h | h
        · exact absurd h hnt
        · simp at h
      · rintro ⟨-, st', f', t', heq, -, -⟩
        have heq2 := hc.symm.trans heq
        simp only [Prod.mk.injEq] at heq2
        exact absurd heq2.1.2.2 (by simp)
  · have hres : u.handleEvent now ev = (.cont, []) := by
      unfold MonCacheOnReadFs.handleEvent
      simp [hop]
    refine ⟨by rw [hres], ?_, rfl, hmon⟩
    rw [hres]
    constructor
    · intro hmem
      simp at hmem
    · rintro ⟨h, -⟩
      exact absurd h hop

end Afero
